import Mathlib

/- Verification of the firstmover core: the reconciliation resolver, adoption-curve
model and percentile engine of src/app.py, and the bounded bisection locator and
multi-tier scanner of src/gmail_search.py, shallowly embedded in Lean.

Conventions of the embedding:
* Timestamps are integer milliseconds since the Unix epoch (ℤ).  Python's
  datetime arithmetic is microsecond-integral; nothing the claims speak about
  depends on sub-millisecond effects (the bisection loop's exit floor is one
  full second), so wall-clock instants, durations and budgets are modelled at
  millisecond granularity.  The temporal midpoint is truncating integer
  division, idealising datetime.fromtimestamp((lo+hi)/2) to within 1 ms.
* Real-valued arithmetic of the source (interpolation fractions, percentile
  ratios, Python round()) is modelled over ℚ; Python round() is round half to
  even, modelled exactly by pyRound below.
* A remote call that can raise a Python exception is modelled as a function
  into Except Unit; the error value stands for the raised exception.
* Python truthiness tests on optional millisecond timestamps (if ts:) are
  modelled by optTruthy: none and some 0 are falsy.  -/

/-- Decidable equality for Except, via the evident encoding into a sum type. -/
def exceptToSum {ε α : Type} : Except ε α → ε ⊕ α
  | .error e => .inl e
  | .ok a => .inr a

instance {ε α : Type} [DecidableEq ε] [DecidableEq α] : DecidableEq (Except ε α) :=
  fun a b =>
    decidable_of_iff (exceptToSum a = exceptToSum b)
      (by cases a <;> cases b <;> simp [exceptToSum])

/-- Python round(): round half to even, over ℚ. -/
def pyRound (q : ℚ) : ℤ :=
  if q - (⌊q⌋ : ℚ) < 1/2 then ⌊q⌋
  else if (1 : ℚ)/2 < q - (⌊q⌋ : ℚ) then ⌊q⌋ + 1
  else if ⌊q⌋ % 2 = 0 then ⌊q⌋ else ⌊q⌋ + 1

/-- Python round(x, 1): round to one decimal place, half to even. -/
def pyRound1 (q : ℚ) : ℚ := (pyRound (10 * q) : ℚ) / 10

/-- Python truthiness of an optional integer: None and 0 are falsy. -/
def optTruthy : Option ℤ → Bool
  | none => false
  | some v => v != 0

/-- Gregorian year and month of a day count since the Unix epoch (proleptic
Gregorian calendar, as used by Python's datetime.date).  Standard
days-to-civil conversion; all divisors are positive so / is floor division. -/
def civilYM (z : ℤ) : ℤ × ℤ :=
  let z' := z + 719468
  let era := z' / 146097
  let doe := z' - era * 146097
  let yoe := (doe - doe / 1460 + doe / 36524 - doe / 146096) / 365
  let doy := doe - (365 * yoe + yoe / 4 - yoe / 100)
  let mp := (5 * doy + 2) / 153
  let m := if mp < 10 then mp + 3 else mp - 9
  let y := yoe + era * 400 + (if m ≤ 2 then 1 else 0)
  (y, m)

/-- UTC calendar day of a millisecond timestamp,
datetime.fromtimestamp(ms/1000, tz=utc).date() as days since the epoch. -/
def msDay (ms : ℤ) : ℤ := ms / 86400000

/-- Linear month index year*12+month of a millisecond timestamp, as computed
from the UTC date in src/app.py line 378. -/
def monthIndex (ms : ℤ) : ℤ :=
  (civilYM (msDay ms)).1 * 12 + (civilYM (msDay ms)).2

/-- Absolute month distance between two millisecond timestamps,
abs((a.year*12+a.month)-(b.year*12+b.month)) of src/app.py line 378. -/
def monthDist (a b : ℤ) : ℤ := |monthIndex a - monthIndex b|

/-- Resolved join record for one platform, the dict built at
src/app.py lines 379-385. -/
structure Resolved where
  date_ms : ℤ
  verified : Bool
  email_hint_ms : Option ℤ
deriving DecidableEq

/-- Reconciliation of a manual timestamp and a Gmail-detected timestamp for one
platform key: the body of the loop at src/app.py lines 373-385.  The arguments
are manual.get(k) and gmail_hits.get(k); Python's `if m_ms and g_ms` tests
truthiness, modelled by optTruthy. -/
def resolve_entry (m_ms g_ms : Option ℤ) : Option Resolved :=
  if optTruthy m_ms && optTruthy g_ms then
    if monthDist (m_ms.getD 0) (g_ms.getD 0) < 12 then
      some ⟨g_ms.getD 0, true, none⟩
    else
      some ⟨m_ms.getD 0, false, some (g_ms.getD 0)⟩
  else if optTruthy g_ms then some ⟨g_ms.getD 0, true, none⟩
  else if optTruthy m_ms then some ⟨m_ms.getD 0, false, none⟩
  else none

/-- Launch-date clamp applied to every card: src/app.py lines 451-453
("if ld and datetime.fromtimestamp(ts/1000,tz=timezone.utc) < ld: ts=..."). -/
def add_card_clamp (ld : Option ℤ) (ts : ℤ) : ℤ :=
  match ld with
  | none => ts
  | some l => if ts < l then l else ts

/-- Per-platform adoption-curve configuration entry of the CURVES mapping
(adoption_curves.json): an optional launch date and a timeline of
(date, user count) points, dates in milliseconds. -/
structure CurveData where
  launch_date : Option ℤ
  timeline : List (ℤ × ℤ)

/-- Python CURVES.get(platform, {}): lookup of a platform key. -/
def curvesGet (curves : List (String × CurveData)) (k : String) : Option CurveData :=
  (curves.find? (fun p => p.1 == k)).map (fun p => p.2)

/-- parse_timeline of src/app.py lines 226-228: the platform's timeline (empty
when the platform is absent), sorted by date. -/
def parse_timeline (curves : List (String × CurveData)) (platform : String) :
    List (ℤ × ℤ) :=
  List.insertionSort (fun a b => a.1 ≤ b.1)
    (match curvesGet curves platform with
     | none => []
     | some c => c.timeline)

/-- launch_date of src/app.py lines 230-233: the configured launch date, else
the first timeline date, else none. -/
def launch_date (curves : List (String × CurveData)) (platform : String) :
    Option ℤ :=
  match (curvesGet curves platform).bind (fun c => c.launch_date) with
  | some ld => some ld
  | none =>
    match parse_timeline curves platform with
    | [] => none
    | t :: _ => some t.1

/-- Interpolated user count between two timeline points, the body of the loop
in users_at (src/app.py lines 241-245): u0 + frac*(u1-u0) with
frac = (when-d0)/span if span else 0. -/
def interpUsers (p0 p1 : ℤ × ℤ) (when : ℤ) : ℚ :=
  (p0.2 : ℚ) +
    (if ((p1.1 : ℚ) - (p0.1 : ℚ)) = 0 then 0
     else ((when : ℚ) - (p0.1 : ℚ)) / ((p1.1 : ℚ) - (p0.1 : ℚ))) *
      ((p1.2 : ℚ) - (p0.2 : ℚ))

/-- Scan of consecutive timeline pairs for a bracketing pair, the for-loop of
users_at (src/app.py lines 241-245); none when no pair brackets `when`. -/
def users_at_scan (when : ℤ) : List (ℤ × ℤ) → Option ℤ
  | p0 :: p1 :: rest =>
    if p0.1 ≤ when ∧ when ≤ p1.1 then some (pyRound (interpUsers p0 p1 when))
    else users_at_scan when (p1 :: rest)
  | _ => none

/-- users_at over an already parsed timeline: src/app.py lines 235-246 after
the parse_timeline call.  Empty timeline gives none; at or before the first
point the first count; at or after the last point the last count; otherwise
the bracketing-pair interpolation, falling back to the last count. -/
def users_at_tl (tl : List (ℤ × ℤ)) (when : ℤ) : Option ℤ :=
  match tl with
  | [] => none
  | first :: rest =>
    let lst := (first :: rest).getLast (List.cons_ne_nil first rest)
    if when ≤ first.1 then some first.2
    else if lst.1 ≤ when then some lst.2
    else
      match users_at_scan when (first :: rest) with
      | some v => some v
      | none => some lst.2

/-- users_at of src/app.py lines 235-246. -/
def users_at (curves : List (String × CurveData)) (platform : String)
    (when_ms : ℤ) : Option ℤ :=
  users_at_tl (parse_timeline curves platform) when_ms

/-- users_today of src/app.py lines 248-249: the last timeline count. -/
def users_today (curves : List (String × CurveData)) (platform : String) :
    Option ℤ :=
  match parse_timeline curves platform with
  | [] => none
  | t :: rest => some (((t :: rest).getLast (List.cons_ne_nil t rest)).2)

/-- early_pct of src/app.py lines 260-262: None unless both counts are truthy,
else round(100*(joined/today), 1). -/
def early_pct (joined today : Option ℤ) : Option ℚ :=
  if optTruthy joined && optTruthy today then
    some (pyRound1 (100 * ((joined.getD 0 : ℚ) / (today.getD 0 : ℚ))))
  else none

/-- before_pct of src/app.py lines 264-266: None unless both counts are truthy,
else round(100*(1-(joined/today)), 1). -/
def before_pct (joined today : Option ℤ) : Option ℚ :=
  if optTruthy joined && optTruthy today then
    some (pyRound1 (100 * (1 - (joined.getD 0 : ℚ) / (today.getD 0 : ℚ))))
  else none

/-- Composite score of src/app.py line 395:
round(100*(sum([p/100.0 for p in pcts])/len(pcts)), 1) if pcts else None. -/
def composite_score (pcts : List ℚ) : Option ℚ :=
  match pcts with
  | [] => none
  | p :: rest =>
    some (pyRound1 (100 * (((p :: rest).map (fun x => x / 100)).sum /
      ((p :: rest).length : ℚ))))

/-- The two composites of src/app.py lines 395-396, computed from the per-card
(percentile, verified) pairs: all_pcts collects every percentile, v_pcts only
the verified ones (src/app.py lines 456-459). -/
def composite_pair (entries : List (ℚ × Bool)) : Option ℚ × Option ℚ :=
  (composite_score (entries.map (fun e => e.1)),
   composite_score ((entries.filter (fun e => e.2)).map (fun e => e.1)))

/-- Embeds src/app.py line 86, CURVES = json.load(open(DATA_PATH)).  The file
read and JSON parse are modelled as a fallible input (error = the raised
exception); the source applies no exception handling and supplies no default,
so the binding passes the outcome through unchanged. -/
def CURVES_load (raw : Except Unit (List (String × CurveData))) :
    Except Unit (List (String × CurveData)) :=
  raw

/-- State of the bisection loop of gmail_find_earliest_hit_ts_bisect
(src/gmail_search.py lines 87-118): the window bounds lo, hi and the best
(earliest) recorded timestamp. -/
structure BState where
  lo : ℤ
  hi : ℤ
  best : Option ℤ
deriving DecidableEq

/-- How the bisection loop exited: the while-condition (budget) or the
small-window break (floor). -/
inductive BExit
  | budget
  | floor
deriving DecidableEq

/-- One iteration of the bisection loop (src/gmail_search.py lines 91-114).
probe d0 d1 models gmail_search_exists restricted to the day-truncated query
window [d0, d1) (the query uses before:/after: at %Y/%m/%d granularity);
fetch d0 d1 models the follow-up single-result list plus messages.get,
returning the internalDate of the first listed message in that day window.
Either remote call may raise (Except.error); no handler exists in the source,
so errors propagate. -/
def bisectStep (probe : ℤ → ℤ → Except Unit Bool)
    (fetch : ℤ → ℤ → Except Unit (Option ℤ)) (s : BState) :
    Except Unit BState :=
  let mid : ℤ := (s.lo + s.hi) / 2
  match probe (msDay s.lo) (msDay mid) with
  | .error err => .error err
  | .ok false => .ok ⟨mid, s.hi, s.best⟩
  | .ok true =>
    match fetch (msDay s.lo) (msDay mid) with
    | .error err => .error err
    | .ok none => .ok ⟨s.lo, mid, s.best⟩
    | .ok (some ts) =>
      .ok ⟨s.lo, mid,
        some (match s.best with
              | none => ts
              | some b => if ts < b then ts else b)⟩

/-- The bisection loop of gmail_find_earliest_hit_ts_bisect (src/gmail_search.py
lines 90-118).  costs lists the wall-clock duration of each iteration's remote
calls and doubles as fuel (the result is none only when fuel runs out, a model
artifact: theorems condition on a real exit).  The while-condition
elapsed < budget is checked before each iteration; the sub-second-window break
(hi - lo < 1 second) is checked after the body, so the elapsed time attached to
a floor exit includes the final iteration's cost. -/
def bisectRun (probe : ℤ → ℤ → Except Unit Bool)
    (fetch : ℤ → ℤ → Except Unit (Option ℤ)) (budget : ℤ) :
    List ℤ → ℤ → BState → Except Unit (Option (BExit × BState × ℤ))
  | [], _, _ => .ok none
  | c :: cs, e, s =>
    if budget ≤ e then .ok (some (.budget, s, e))
    else
      match bisectStep probe fetch s with
      | .error err => .error err
      | .ok s' =>
        if s'.hi - s'.lo < 1000 then .ok (some (.floor, s', e + c))
        else bisectRun probe fetch budget cs (e + c) s'

/-- gmail_find_earliest_hit_ts_bisect of src/gmail_search.py lines 81-120:
run the bisection loop from the window [start_dt, end_dt] with no prior best
and zero elapsed time. -/
def gmail_find_earliest_hit_ts_bisect (probe : ℤ → ℤ → Except Unit Bool)
    (fetch : ℤ → ℤ → Except Unit (Option ℤ)) (budget : ℤ) (costs : List ℤ)
    (start_dt end_dt : ℤ) : Except Unit (Option (BExit × BState × ℤ)) :=
  bisectRun probe fetch budget costs 0 ⟨start_dt, end_dt, none⟩

/-- Fold computing the maximum of a list of timestamps on top of an optional
accumulator. -/
def maxOptFold (l : List ℤ) (acc : Option ℤ) : Option ℤ :=
  l.foldl (fun a m => match a with
    | none => some m
    | some b => some (if b < m then m else b)) acc

/-- Fold computing the minimum of a list of timestamps on top of an optional
accumulator; its per-element update is exactly the best-hit update of
src/gmail_search.py lines 111 and 153-155. -/
def minOptFold (l : List ℤ) (acc : Option ℤ) : Option ℤ :=
  l.foldl (fun a t => match a with
    | none => some t
    | some b => if t < b then some t else some b) acc

/-- Messages of a deterministic message store whose UTC day falls in the day
window [dlo, dhi). -/
def matchesIn (store : List ℤ) (dlo dhi : ℤ) : List ℤ :=
  store.filter (fun m => decide (dlo ≤ msDay m) && decide (msDay m < dhi))

/-- Existence probe over a deterministic message store: does any message match
the day window?  Models gmail_search_exists (src/gmail_search.py lines 66-79)
against a store holding the timestamps of every message matching the base
query. -/
def existsInStore (store : List ℤ) (dlo dhi : ℤ) : Bool :=
  !(matchesIn store dlo dhi).isEmpty

/-- Fetch of the first listed message of the day window.  Gmail lists messages
newest first, so the first item of the first page (maxResults=1, taken at
src/gmail_search.py lines 98-110) is the MOST RECENT match in the window:
the maximum timestamp. -/
def newestInStore (store : List ℤ) (dlo dhi : ℤ) : Option ℤ :=
  maxOptFold (matchesIn store dlo dhi) none

/-- Modelled from the spec: "fetch the authoritative timestamp of the earliest
item in [lo, mid]" (section 4.1).  The earliest matching item of the day
window, i.e. the minimum timestamp; stated for comparison with newestInStore,
which is what the code fetches. -/
def spec_earliest_in_range (store : List ℤ) (dlo dhi : ℤ) : Option ℤ :=
  minOptFold (matchesIn store dlo dhi) none

/-- The existence probe of a deterministic store as a remote call that never
raises. -/
def storeProbe (store : List ℤ) : ℤ → ℤ → Except Unit Bool :=
  fun dlo dhi => .ok (existsInStore store dlo dhi)

/-- The fetch of a deterministic store as a remote call that never raises. -/
def storeFetch (store : List ℤ) : ℤ → ℤ → Except Unit (Option ℤ) :=
  fun dlo dhi => .ok (newestInStore store dlo dhi)

/-- Invariant of the bisection loop over a deterministic store whose earliest
matching day is D, for an initial upper bound hi0: no match lies on a day
before day(lo); some match lies on a day before day(hi); and the recorded best,
when present, is a stored message older than the start of day(hi), while best
absent means hi was never lowered. -/
def BInv (store : List ℤ) (hi0 D : ℤ) (s : BState) : Prop :=
  msDay s.lo ≤ D ∧ D < msDay s.hi ∧
    (match s.best with
     | none => s.hi = hi0
     | some b => b ∈ store ∧ b < msDay s.hi * 86400000)

/-- QUERY_MAP of src/gmail_search.py lines 22-62: the built-in two-tier query
map, strict pass first, broad fallback second. -/
def QUERY_MAP : List (String × List String) :=
  [("twitter",
    ["from:(verify@twitter.com OR info@twitter.com OR hello@twitter.com OR no-reply@twitter.com OR twitter.com) subject:(welcome OR confirm OR verify)",
     "from:(twitter.com OR x.com) (welcome OR confirm OR verify OR \"Thanks for signing up\" OR activate OR \"confirm your email\")"]),
   ("linkedin",
    ["from:(linkedin.com OR messages-noreply@linkedin.com OR security-noreply@linkedin.com OR customer_service@linkedin.com OR news-noreply@linkedin.com) subject:(welcome OR confirm OR verify)",
     "from:(linkedin.com) (welcome OR confirm OR verify OR \"confirm your email\" OR \"Thanks for joining\")"]),
   ("reddit",
    ["from:(noreply@reddit.com OR do-not-reply@reddit.com OR noreply@redditmail.com) subject:(welcome OR confirm OR verify)",
     "from:(reddit.com OR redditmail.com) (welcome OR confirm OR verify OR activate OR \"confirm your email\")"]),
   ("instagram",
    ["from:(mail.instagram.com OR security@mail.instagram.com) subject:(welcome OR confirm OR verify)",
     "from:(instagram.com) (welcome OR confirm OR verify OR \"confirm your email\")"]),
   ("spotify",
    ["from:(no-reply@spotify.com) subject:(welcome OR confirm OR verify)",
     "from:(spotify.com) (welcome OR confirm OR verify OR \"thanks for signing up\")"]),
   ("dropbox",
    ["from:(no-reply@dropbox.com OR dropbox@mail.dropbox.com OR no-reply@dropboxmail.com) subject:(welcome OR confirm OR verify)",
     "from:(dropbox.com OR dropboxmail.com) (welcome OR confirm OR verify OR activate)"]),
   ("amazonprime",
    ["from:(no-reply@amazon.com OR prime@amazon.com OR digital-no-reply@amazon.com OR prime-enroll@amazon.com) subject:(prime OR welcome OR confirm OR verify)",
     "from:(amazon.com) (prime OR welcome OR confirm OR verify OR \"thanks for joining\")"]),
   ("openai",
    ["from:(noreply@openai.com OR team@openai.com OR no-reply@accounts.openai.com OR noreply@accounts.openai.com OR no-reply@chat.openai.com) subject:(welcome OR confirm OR verify OR \"ChatGPT\")",
     "from:(openai.com OR accounts.openai.com OR chat.openai.com) (welcome OR confirm OR verify OR \"ChatGPT\")"]),
   ("facebook",
    ["from:(facebookmail.com OR notify@facebookmail.com) subject:(welcome OR confirm OR verify OR \"Just one more step\")",
     "from:(facebookmail.com OR facebook.com) (\"confirm your email\" OR activate)"])]

/-- Query selection of gmail_oldest_from_queries_bounded (src/gmail_search.py
lines 137-140): the built-in tiers when the key is in QUERY_MAP, else the
caller-supplied list. -/
def selectedQueries (key : String) (query_list : List String) : List String :=
  match QUERY_MAP.find? (fun p => p.1 == key) with
  | some p => p.2
  | none => query_list

/-- The tier loop of gmail_oldest_from_queries_bounded (src/gmail_search.py
lines 142-160).  runQuery q remaining models the call
gmail_find_earliest_hit_ts_bisect(svc, q, start_dt, end_dt, remaining) for the
fixed per-key window, returning the optional hit together with the wall-clock
time the call consumed; it may raise (no handler exists in the source).
Before each tier the remaining budget is checked; after each tier the hit is
recorded first (Python `if ts:`, truthiness) and only then the budget re-checked,
so a hit of the tier that exhausts the budget is preserved. -/
def scanLoop (runQuery : String → ℤ → Except Unit (Option ℤ × ℤ)) (budget : ℤ) :
    List String → ℤ → Option ℤ → Except Unit (Option ℤ)
  | [], _, best => .ok best
  | q :: rest, elapsed, best =>
    if budget - elapsed ≤ 0 then .ok best
    else
      match runQuery q (budget - elapsed) with
      | .error err => .error err
      | .ok (ts, dt) =>
        let best' :=
          match ts with
          | some t =>
            if t ≠ 0 then
              match best with
              | none => some t
              | some b => if t < b then some t else some b
            else best
          | none => best
        if budget ≤ elapsed + dt then .ok best'
        else scanLoop runQuery budget rest (elapsed + dt) best'

/-- The nonzero hits of the tiers that the scan loop actually attempts, in
order, under the same budget discipline as scanLoop (whose control flow does
not depend on the recorded best). -/
def attemptedHits (runQuery : String → ℤ → Except Unit (Option ℤ × ℤ))
    (budget : ℤ) : List String → ℤ → Except Unit (List ℤ)
  | [], _ => .ok []
  | q :: rest, elapsed =>
    if budget - elapsed ≤ 0 then .ok []
    else
      match runQuery q (budget - elapsed) with
      | .error err => .error err
      | .ok (ts, dt) =>
        let here :=
          match ts with
          | some t => if t ≠ 0 then [t] else []
          | none => []
        if budget ≤ elapsed + dt then .ok here
        else
          match attemptedHits runQuery budget rest (elapsed + dt) with
          | .error err => .error err
          | .ok hs => .ok (here ++ hs)

/-- Minimum of a hit list, none when empty: the value scanLoop accumulates. -/
def oldestOf (hs : List ℤ) : Option ℤ := minOptFold hs none

/-- Top-level names defined in src/app.py, in order of definition (functions
and module constants).  The Gmail service constructor is gmail_service
(line 123); no build_gmail is defined anywhere in the repository. -/
def app_module_names : List String :=
  ["DB_URL", "engine", "init_db", "save_results", "getenv", "app",
   "GOOGLE_CLIENT_ID", "GOOGLE_CLIENT_SECRET", "oauth", "DATA_PATH", "CURVES",
   "METRIC_TAGS", "PRETTY_NAMES", "LOGO_URLS", "token_has_gmail_scope",
   "ms_to_pretty", "ms_to_iso", "month_year_to_ms", "abs_month_diff",
   "month_diff", "gmail_service", "gmail_has_before", "gmail_find_first_day",
   "gmail_first_msg_ms", "WELCOME_QUERY_SETS", "gmail_oldest_for_query",
   "gmail_oldest_from_queries", "parse_timeline", "launch_date", "users_at",
   "users_today", "timeline_series", "early_pct", "before_pct", "index",
   "save_manual", "login_google", "auth_google", "get_google_credentials",
   "results", "add_card", "healthz"]

/-- The Python statement "from app import build_gmail" of src/gmail_search.py
line 127: it succeeds exactly when the app module defines a top-level name
build_gmail, and raises ImportError otherwise.  src/app.py defines
gmail_service instead, so this import always raises. -/
def import_build_gmail : Except Unit Unit :=
  if "build_gmail" ∈ app_module_names then Except.ok () else Except.error ()

/-- gmail_oldest_from_queries_bounded of src/gmail_search.py lines 122-162:
first the local import "from app import build_gmail" and service construction
(lines 127-128) — the import raises, since src/app.py defines gmail_service
and no build_gmail exists — then selection of the key's built-in tiers
(falling back to the caller's list) and the budgeted tier loop with no prior
best and zero elapsed time.  creds and svc are absorbed into runQuery, every
use of which the failing import precedes. -/
def gmail_oldest_from_queries_bounded
    (runQuery : String → ℤ → Except Unit (Option ℤ × ℤ)) (budget : ℤ)
    (key : String) (query_list : List String) : Except Unit (Option ℤ) :=
  match import_build_gmail with
  | .error err => .error err
  | .ok _ => scanLoop runQuery budget (selectedQueries key query_list) 0 none

/-- gmail_oldest_from_queries of src/app.py lines 213-224: fold over the
per-query outcomes (each gmail_oldest_for_query call may raise; the
try/except turns a raised exception into ts = None for that query) keeping
the earliest non-None timestamp. -/
def gmail_oldest_from_queries (results : List (Except Unit (Option ℤ))) :
    Option ℤ :=
  results.foldl (fun best r =>
    let ts : Option ℤ :=
      match r with
      | .error _ => none
      | .ok t => t
    match ts with
    | some t =>
      match best with
      | none => some t
      | some b => if t < b then some t else some b
    | none => best) none

/-- Helper: evaluate a concrete floor from explicit bounds. -/
theorem floor_eval (q : ℚ) (z : ℤ) (h1 : (z : ℚ) ≤ q) (h2 : q < (z : ℚ) + 1) :
    ⌊q⌋ = z := by
  rw [Int.floor_eq_iff]
  exact ⟨h1, by exact_mod_cast h2⟩

/-- Helper: pyRound is the identity on integers. -/
theorem pyRound_intCast (n : ℤ) : pyRound (n : ℚ) = n := by
  unfold pyRound
  rw [Int.floor_intCast]
  norm_num

/-- Helper: pyRound rounds to a nearest integer (distance at most one half). -/
theorem pyRound_near (q : ℚ) : |(pyRound q : ℚ) - q| ≤ 1/2 := by
  have h0 : (⌊q⌋ : ℚ) ≤ q := Int.floor_le q
  have h1 : q < (⌊q⌋ : ℚ) + 1 := Int.lt_floor_add_one q
  unfold pyRound
  by_cases hc : q - (⌊q⌋ : ℚ) < 1/2
  · rw [if_pos hc, abs_le]
    constructor <;> linarith
  · rw [if_neg hc]
    by_cases hc2 : (1 : ℚ)/2 < q - (⌊q⌋ : ℚ)
    · rw [if_pos hc2]
      push_cast
      rw [abs_le]
      constructor <;> linarith
    · rw [if_neg hc2]
      have heq : q - (⌊q⌋ : ℚ) = 1/2 := le_antisymm (not_lt.mp hc2) (not_lt.mp hc)
      by_cases hm : ⌊q⌋ % 2 = 0
      · rw [if_pos hm, abs_le]
        constructor <;> linarith
      · rw [if_neg hm, abs_le]
        push_cast
        constructor <;> linarith

/-- Helper: pyRound1 is the identity on integers. -/
theorem pyRound1_intCast (n : ℤ) : pyRound1 (n : ℚ) = (n : ℚ) := by
  unfold pyRound1
  rw [show (10 : ℚ) * (n : ℚ) = ((10 * n : ℤ) : ℚ) by push_cast; ring, pyRound_intCast]
  field_simp

/-- C1: resolve merges manual and detected timestamps: both present and month
distance < 12 gives the detected timestamp verified; distance >= 12 gives the
manual timestamp unverified with the detected one as conflicting hint; only
detected gives detected verified; only manual gives manual unverified; neither
omits the target; and a resolved timestamp earlier than the launch date is
clamped up to the launch date. -/
theorem claim_C1 :
    (∀ mv gv : ℤ, mv ≠ 0 → gv ≠ 0 → monthDist mv gv < 12 →
      resolve_entry (some mv) (some gv) = some ⟨gv, true, none⟩) ∧
    (∀ mv gv : ℤ, mv ≠ 0 → gv ≠ 0 → 12 ≤ monthDist mv gv →
      resolve_entry (some mv) (some gv) = some ⟨mv, false, some gv⟩) ∧
    (∀ gv : ℤ, gv ≠ 0 → resolve_entry none (some gv) = some ⟨gv, true, none⟩) ∧
    (∀ mv : ℤ, mv ≠ 0 → resolve_entry (some mv) none = some ⟨mv, false, none⟩) ∧
    resolve_entry none none = none ∧
    (∀ l ts : ℤ, ts < l → add_card_clamp (some l) ts = l) ∧
    (∀ l ts : ℤ, l ≤ ts → add_card_clamp (some l) ts = ts) := by
  refine ⟨?_, ?_, ?_, ?_, rfl, ?_, ?_⟩
  · intro mv gv hm hg hlt
    have h1 : optTruthy (some mv) = true := by simp [optTruthy, hm]
    have h2 : optTruthy (some gv) = true := by simp [optTruthy, hg]
    simp only [resolve_entry, h1, h2, Option.getD_some, Bool.and_self, if_true]
    rw [if_pos hlt]
  · intro mv gv hm hg hge
    have h1 : optTruthy (some mv) = true := by simp [optTruthy, hm]
    have h2 : optTruthy (some gv) = true := by simp [optTruthy, hg]
    simp only [resolve_entry, h1, h2, Option.getD_some, Bool.and_self, if_true]
    rw [if_neg (not_lt.mpr hge)]
  · intro gv hg
    have h2 : optTruthy (some gv) = true := by simp [optTruthy, hg]
    simp [resolve_entry, optTruthy, h2, hg]
  · intro mv hm
    have h1 : optTruthy (some mv) = true := by simp [optTruthy, hm]
    simp [resolve_entry, optTruthy, h1, hm]
  · intro l ts h
    simp [add_card_clamp, h]
  · intro l ts h
    simp [add_card_clamp, not_lt.mpr h]

/-- Witness for C1 at the spec's own examples: manual 2010-01-01 with detected
2010-06-01 (5 months) resolves to the detected timestamp verified; manual
2010-01-01 with detected 2015-01-01 (60 months) resolves to the manual
timestamp unverified with the detected hint; and a timestamp before the launch
date is clamped to it. -/
theorem claim_C1_witness :
    resolve_entry (some 1262304000000) (some 1275350400000) =
      some ⟨1275350400000, true, none⟩ ∧
    resolve_entry (some 1262304000000) (some 1420070400000) =
      some ⟨1262304000000, false, some 1420070400000⟩ ∧
    add_card_clamp (some 1000000000000) 999999999999 = 1000000000000 := by
  exact ⟨claim_C1.1 _ _ (by decide) (by decide) (by decide),
         claim_C1.2.1 _ _ (by decide) (by decide) (by decide),
         claim_C1.2.2.2.2.2.1 _ _ (by decide)⟩

/-- Counterexample to C5 as stated: with both inputs present and todayUsers
nonzero, joinedUsers = 0 still yields an absent percentile, because the source
tests Python truthiness (`if not joined`), not only presence and todayUsers. -/
theorem claim_C5_counterexample :
    early_pct (some 0) (some 1000000000) = none := rfl

/-- C5 (amended): when both counts are present and nonzero, earlyPercentile is
100*joined/today and narrativePercent is 100*(1-joined/today), each rounded to
one decimal place (Python round half to even); the result is absent exactly
when either input is absent or equal to zero (so todayUsers = 0 or
joinedUsers = 0). -/
theorem claim_C5 :
    (∀ j t : ℤ, j ≠ 0 → t ≠ 0 →
      early_pct (some j) (some t) = some (pyRound1 (100 * ((j : ℚ) / (t : ℚ)))) ∧
      before_pct (some j) (some t) =
        some (pyRound1 (100 * (1 - (j : ℚ) / (t : ℚ))))) ∧
    (∀ t, early_pct none t = none ∧ before_pct none t = none) ∧
    (∀ j, early_pct j none = none ∧ before_pct j none = none) ∧
    (∀ j, early_pct (some j) (some 0) = none ∧ before_pct (some j) (some 0) = none) ∧
    (∀ t, early_pct (some 0) (some t) = none ∧ before_pct (some 0) (some t) = none) := by
  refine ⟨?_, ?_, ?_, ?_, ?_⟩
  · intro j t hj ht
    have h1 : optTruthy (some j) = true := by simp [optTruthy, hj]
    have h2 : optTruthy (some t) = true := by simp [optTruthy, ht]
    constructor
    · simp only [early_pct, h1, h2, Option.getD_some, Bool.and_self, if_true]
    · simp only [before_pct, h1, h2, Option.getD_some, Bool.and_self, if_true]
  · intro t
    constructor <;> simp [early_pct, before_pct, optTruthy]
  · intro j
    constructor <;> cases j <;> simp [early_pct, before_pct, optTruthy]
  · intro j
    constructor <;> simp [early_pct, before_pct, optTruthy]
  · intro t
    constructor <;> simp [early_pct, before_pct, optTruthy]

/-- Witness for C5 at the spec's example: joined 10,000,000 of today
1,000,000,000 gives earlyPercentile 1.0 and narrativePercent 99.0. -/
theorem claim_C5_witness :
    early_pct (some 10000000) (some 1000000000) = some 1 ∧
    before_pct (some 10000000) (some 1000000000) = some 99 := by
  have h := claim_C5.1 10000000 1000000000 (by decide) (by decide)
  constructor
  · rw [h.1, show (100 : ℚ) * (((10000000 : ℤ) : ℚ) / ((1000000000 : ℤ) : ℚ)) =
        ((1 : ℤ) : ℚ) by norm_num, pyRound1_intCast]
    norm_num
  · rw [h.2, show (100 : ℚ) * (1 - ((10000000 : ℤ) : ℚ) / ((1000000000 : ℤ) : ℚ)) =
        ((99 : ℤ) : ℚ) by norm_num, pyRound1_intCast]
    norm_num

/-- Counterexample to C6 as stated: for the percentiles [1.0, 50.1] the average
re-expressed on the 0-100 scale is 25.55, but the code rounds the composite to
one decimal (half to even) and returns 25.6, so the composite does not equal
that average. -/
theorem claim_C6_counterexample :
    composite_score [1, 501/10] = some (128/5) ∧
    (100 : ℚ) * (((1 : ℚ)/100 + (501 : ℚ)/10/100) / 2) = 511/20 ∧
    (128 : ℚ)/5 ≠ 511/20 := by
  refine ⟨?_, by norm_num, by norm_num⟩
  show some (pyRound1 _) = _
  rw [show (100 : ℚ) * ((([(1 : ℚ), 501/10].map (fun x => x / 100)).sum) /
      (([(1 : ℚ), 501/10].length : ℚ))) = 511/20 by norm_num [List.sum_cons]]
  unfold pyRound1 pyRound
  rw [show (10 : ℚ) * (511/20) = 511/2 by norm_num]
  rw [floor_eval (511/2) 255 (by norm_num) (by norm_num)]
  norm_num

/-- C6 (amended): the composite equals the average of the per-target
percentiles (equivalently, 100 times the average of the fractional
percentiles), rounded to one decimal place (half to even); it is absent exactly
when the contributing set is empty; and it is computed twice, once over all
percentiles and once over the verified-only ones. -/
theorem claim_C6 :
    (∀ pcts : List ℚ, pcts ≠ [] →
      composite_score pcts = some (pyRound1 (pcts.sum / (pcts.length : ℚ)))) ∧
    composite_score [] = none ∧
    (∀ entries : List (ℚ × Bool),
      composite_pair entries =
        (composite_score (entries.map (fun e => e.1)),
         composite_score ((entries.filter (fun e => e.2)).map (fun e => e.1)))) := by
  refine ⟨?_, rfl, fun _ => rfl⟩
  have hsum : ∀ l : List ℚ, (l.map (fun x => x / 100)).sum = l.sum / 100 := by
    intro l
    induction l with
    | nil => simp
    | cons x xs ih => simp [ih, add_div]
  intro pcts hne
  match pcts with
  | p :: rest =>
    simp only [composite_score]
    congr 1
    congr 1
    rw [hsum, div_div, ← mul_div_assoc,
      mul_div_mul_left _ _ (by norm_num : (100 : ℚ) ≠ 0)]

/-- Witness for C6 at the spec's example: percentiles [1.0, 50.0] give
composite 25.5, and the empty set gives an absent composite. -/
theorem claim_C6_witness :
    composite_score [1, 50] = some (51/2) ∧ composite_score [] = none := by
  constructor
  · rw [claim_C6.1 [1, 50] (by simp)]
    rw [show (([(1 : ℚ), 50].sum) / (([(1 : ℚ), 50].length : ℚ))) = ((51 : ℚ)/2) by
      norm_num [List.sum_cons]]
    have hp : pyRound1 ((51 : ℚ)/2) = 51/2 := by
      unfold pyRound1
      rw [show (10 : ℚ) * (51/2) = ((255 : ℤ) : ℚ) by norm_num, pyRound_intCast]
      norm_num
    rw [hp]
  · exact claim_C6.2.1

/-- Counterexample to C9 as stated: when reading or parsing the curve dataset
fails, the load does not fail open to any default curve set — the exception
propagates (src/app.py line 86 applies json.load with no handler and no
built-in fallback), so the process crashes at import. -/
theorem claim_C9_counterexample :
    ¬ ∃ c, CURVES_load (Except.error ()) = Except.ok c := by
  rintro ⟨c, h⟩
  exact Except.noConfusion h

/-- C9 (amended): the curve dataset load has no fail-open default — a missing
or malformed dataset file propagates its exception unchanged.  Robustness
exists only one level down: a platform key absent from a loaded dataset yields
an empty parsed timeline, and then users_at, users_today and launch_date all
return none (so downstream percentile code skips the card rather than
raising). -/
theorem claim_C9 :
    (∀ raw, CURVES_load raw = raw) ∧
    (∀ curves platform when_ms, curvesGet curves platform = none →
      parse_timeline curves platform = [] ∧
      users_at curves platform when_ms = none ∧
      users_today curves platform = none ∧
      launch_date curves platform = none) := by
  refine ⟨fun _ => rfl, ?_⟩
  intro curves platform when_ms h
  have hpt : parse_timeline curves platform = [] := by
    unfold parse_timeline
    rw [h]
    rfl
  refine ⟨hpt, ?_, ?_, ?_⟩
  · unfold users_at
    rw [hpt]
    rfl
  · unfold users_today
    rw [hpt]
  · unfold launch_date
    rw [h, hpt]
    rfl

/-- Witness for C9 at a concrete empty dataset and platform key. -/
theorem claim_C9_witness :
    parse_timeline [] "gmail" = [] ∧
    users_at [] "gmail" 0 = none ∧
    users_today [] "gmail" = none ∧
    launch_date [] "gmail" = none := by
  exact (claim_C9.2 [] "gmail" 0 rfl)

/-- C10 (code bug): the scanner's result is indeed independent of the
caller-supplied query_list — for ANY key and any two lists the outcomes agree
(first conjunct) — but only because every call raises at
"from app import build_gmail" (src/app.py defines gmail_service, no
build_gmail) before the query selection runs (second conjunct).  The selection
the claim attributes the independence to (src/gmail_search.py lines 137-140)
is dead code downstream of that import; its logic is as the claim states: for
a key present in QUERY_MAP the selected tiers are the built-in ones whatever
the caller passed, and the caller's list is selected exactly when the key is
absent (third and fourth conjuncts). -/
theorem claim_C10 :
    (∀ runQuery (budget : ℤ) key ql1 ql2,
      gmail_oldest_from_queries_bounded runQuery budget key ql1 =
        gmail_oldest_from_queries_bounded runQuery budget key ql2) ∧
    (∀ runQuery (budget : ℤ) key ql,
      gmail_oldest_from_queries_bounded runQuery budget key ql =
        Except.error ()) ∧
    (∀ key ql1 ql2, (QUERY_MAP.find? (fun p => p.1 == key)).isSome →
      selectedQueries key ql1 = selectedQueries key ql2) ∧
    (∀ key ql, QUERY_MAP.find? (fun p => p.1 == key) = none →
      selectedQueries key ql = ql) := by
  have herr : ∀ runQuery (budget : ℤ) key ql,
      gmail_oldest_from_queries_bounded runQuery budget key ql =
        Except.error () := by
    intro runQuery budget key ql
    have himp : import_build_gmail = Except.error () := by decide
    unfold gmail_oldest_from_queries_bounded
    rw [himp]
  refine ⟨?_, herr, ?_, ?_⟩
  · intro runQuery budget key ql1 ql2
    rw [herr runQuery budget key ql1, herr runQuery budget key ql2]
  · intro key ql1 ql2 h
    obtain ⟨p, hp⟩ := Option.isSome_iff_exists.mp h
    unfold selectedQueries
    rw [hp]
  · intro key ql h
    unfold selectedQueries
    rw [h]

/-- Witness for C10: for the key "twitter" (present in QUERY_MAP) two
different caller-supplied query lists give identical outcomes; the concrete
call ends in the import error; the query selection for "twitter" ignores the
caller's list, while an unmapped key receives it. -/
theorem claim_C10_witness :
    gmail_oldest_from_queries_bounded (fun _ r => Except.ok (some 123456789, r))
      5 "twitter" ["caller supplied query"] =
      gmail_oldest_from_queries_bounded
        (fun _ r => Except.ok (some 123456789, r)) 5 "twitter" [] ∧
    gmail_oldest_from_queries_bounded (fun _ r => Except.ok (some 123456789, r))
      5 "twitter" ["caller supplied query"] = Except.error () ∧
    selectedQueries "twitter" ["caller supplied query"] =
      selectedQueries "twitter" [] ∧
    selectedQueries "nokey" ["caller supplied query"] =
      ["caller supplied query"] := by
  exact ⟨claim_C10.1 _ 5 "twitter" _ _,
    claim_C10.2.1 _ 5 "twitter" _,
    claim_C10.2.2.1 "twitter" _ _ (by rfl),
    claim_C10.2.2.2 "nokey" _ (by rfl)⟩

/-- Counterexample to C7 as stated: no fixed maximum iteration count exists in
the locator's loop.  With an always-false zero-cost probe and a window of
1000 * 2^37 ms, the loop is still running after 37 full iterations (the fuel of
the model runs out, returning the artificial none): a fixed cap of about 32
halvings would have terminated it. -/
theorem claim_C7_counterexample :
    gmail_find_earliest_hit_ts_bisect (fun _ _ => Except.ok false)
      (fun _ _ => Except.ok none) 1 (List.replicate 37 0) 0 137438953472000 =
      Except.ok none := by
  decide

/-- C7 (amended): when the locator's loop terminates normally it does so in
exactly two ways — the while-condition exit with the elapsed time at or beyond
the budget, or the break with hi - lo below the one-second floor — and each
iteration halves the window (up to integer rounding), so the floor itself
bounds the iteration count by about log2 of the window; there is no separate
fixed maximum iteration count.  (A probe exception is the one further exit:
it aborts the loop, see C8.) -/
theorem claim_C7 :
    (∀ probe fetch (budget : ℤ) cs e s s' e2,
      bisectRun probe fetch budget cs e s = .ok (some (.budget, s', e2)) →
      budget ≤ e2) ∧
    (∀ probe fetch (budget : ℤ) cs e s s' e2,
      bisectRun probe fetch budget cs e s = .ok (some (.floor, s', e2)) →
      s'.hi - s'.lo < 1000) ∧
    (∀ probe fetch s s', bisectStep probe fetch s = .ok s' →
      s'.hi - s'.lo = (s.hi - s.lo) / 2 ∨
      s'.hi - s'.lo = (s.hi - s.lo) - (s.hi - s.lo) / 2) := by
  refine ⟨?_, ?_, ?_⟩
  · intro probe fetch budget cs
    induction cs with
    | nil =>
      intro e s s' e2 h
      simp [bisectRun] at h
    | cons c rest ih =>
      intro e s s' e2 h
      unfold bisectRun at h
      split at h
      · simp only [Except.ok.injEq, Option.some.injEq, Prod.mk.injEq] at h
        obtain ⟨-, -, he⟩ := h
        subst he
        assumption
      · split at h
        · simp at h
        · split at h
          · simp at h
          · exact ih _ _ _ _ h
  · intro probe fetch budget cs
    induction cs with
    | nil =>
      intro e s s' e2 h
      simp [bisectRun] at h
    | cons c rest ih =>
      intro e s s' e2 h
      unfold bisectRun at h
      split at h
      · simp at h
      · split at h
        · simp at h
        · rename_i s2 heq
          split at h
          · rename_i hf
            simp only [Except.ok.injEq, Option.some.injEq, Prod.mk.injEq] at h
            obtain ⟨-, hs', -⟩ := h
            rw [← hs']
            exact hf
          · exact ih _ _ _ _ h
  · intro probe fetch s s' h
    simp only [bisectStep] at h
    split at h
    · simp at h
    · simp only [Except.ok.injEq] at h
      subst h
      dsimp only
      omega
    · split at h
      · simp at h
      · simp only [Except.ok.injEq] at h
        subst h
        dsimp only
        omega
      · simp only [Except.ok.injEq] at h
        subst h
        dsimp only
        omega

/-- Witness for C7: a concrete run that exits through the sub-second floor
satisfies the floor characterisation. -/
theorem claim_C7_witness :
    (⟨1536, 2048, (none : Option ℤ)⟩ : BState).hi -
      (⟨1536, 2048, (none : Option ℤ)⟩ : BState).lo < 1000 := by
  exact claim_C7.2.1 (fun _ _ => Except.ok false) (fun _ _ => Except.ok none) 1
    [0, 0, 0] 0 ⟨0, 2048, none⟩ ⟨1536, 2048, none⟩ 0 (by decide)

/-- Counterexample to C8 as stated: a probe exception is not treated as "no
match" — gmail_find_earliest_hit_ts_bisect has no exception handler, so the
error propagates out of the locator as a fatal error. -/
theorem claim_C8_counterexample :
    gmail_find_earliest_hit_ts_bisect (fun _ _ => Except.error ())
      (fun _ _ => Except.ok none) 10 [1] 0 8640000000 = Except.error () := rfl

/-- C8 (amended): inside the bisection locator a probe (or fetch) exception
aborts the iteration and propagates out of the loop unhandled; the search does
not continue and lo does not advance.  Exception recovery exists only at
whole-query granularity, in gmail_oldest_from_queries (src/app.py lines
213-224): a query whose evaluation raises contributes exactly as a query that
found nothing, and scanning continues with the next query; and in the bounded
scanner a tier that raises likewise aborts the whole scan. -/
theorem claim_C8 :
    (∀ probe fetch (s : BState),
      probe (msDay s.lo) (msDay ((s.lo + s.hi) / 2)) = Except.error () →
      bisectStep probe fetch s = Except.error ()) ∧
    (∀ probe fetch (budget c : ℤ) (cs : List ℤ) (e : ℤ) (s : BState),
      ¬ budget ≤ e →
      bisectStep probe fetch s = Except.error () →
      bisectRun probe fetch budget (c :: cs) e s = Except.error ()) ∧
    (∀ pre post,
      gmail_oldest_from_queries (pre ++ Except.error () :: post) =
        gmail_oldest_from_queries (pre ++ Except.ok none :: post)) ∧
    (∀ runQuery (budget : ℤ) q (rest : List String) (e : ℤ) (best : Option ℤ),
      ¬ budget - e ≤ 0 →
      runQuery q (budget - e) = Except.error () →
      scanLoop runQuery budget (q :: rest) e best = Except.error ()) := by
  refine ⟨?_, ?_, ?_, ?_⟩
  · intro probe fetch s hp
    simp only [bisectStep, hp]
  · intro probe fetch budget c cs e s hb hstep
    unfold bisectRun
    rw [if_neg hb, hstep]
  · intro pre post
    simp only [gmail_oldest_from_queries, List.foldl_append, List.foldl_cons]
  · intro runQuery budget q rest e best hb hq
    unfold scanLoop
    rw [if_neg hb, hq]

/-- Witness for C8: a concrete erroring probe aborts a run of the locator, and
a concrete erroring query inside gmail_oldest_from_queries is equivalent to a
query with no result. -/
theorem claim_C8_witness :
    bisectRun (fun _ _ => Except.error ()) (fun _ _ => Except.ok none) 10
      [1, 1] 0 ⟨0, 86400000, none⟩ = Except.error () ∧
    gmail_oldest_from_queries [Except.ok (some 777), Except.error ()] =
      gmail_oldest_from_queries [Except.ok (some 777), Except.ok none] := by
  constructor
  · exact claim_C8.2.1 _ _ 10 1 [1] 0 ⟨0, 86400000, none⟩ (by decide) rfl
  · exact claim_C8.2.2.1 [Except.ok (some 777)] []

/-- Helper: a minOptFold that starts from a present accumulator stays present. -/
theorem minOptFold_isSome : ∀ (l : List ℤ) (b : ℤ), (minOptFold l (some b)).isSome := by
  intro l
  induction l with
  | nil => intro b; rfl
  | cons t rest ih =>
    intro b
    unfold minOptFold at ih ⊢
    simp only [List.foldl_cons]
    by_cases h : t < b
    · rw [if_pos h]; exact ih t
    · rw [if_neg h]; exact ih b

/-- Helper: full characterisation of a successful minOptFold: the result is an
element or the accumulator, bounds every element, and bounds the accumulator. -/
theorem minOptFold_spec : ∀ (l : List ℤ) (acc : Option ℤ) (m : ℤ),
    minOptFold l acc = some m →
    (m ∈ l ∨ acc = some m) ∧ (∀ x ∈ l, m ≤ x) ∧ (∀ b, acc = some b → m ≤ b) := by
  intro l
  induction l with
  | nil =>
    intro acc m h
    unfold minOptFold at h
    simp only [List.foldl_nil] at h
    exact ⟨Or.inr h, by simp, fun b hb => by rw [hb] at h; injection h with h; omega⟩
  | cons t rest ih =>
    intro acc m h
    unfold minOptFold at h
    simp only [List.foldl_cons] at h
    have hupd : ∃ u, (match acc with
        | none => some t
        | some b => if t < b then some t else some b) = some u ∧ u ≤ t ∧
        (∀ b, acc = some b → u ≤ b) ∧ (u = t ∨ acc = some u) := by
      match acc with
      | none => exact ⟨t, rfl, le_refl t, by simp, Or.inl rfl⟩
      | some b =>
        by_cases hb : t < b
        · exact ⟨t, by simp [hb], le_refl t, fun x hx => by injection hx with hx; omega,
            Or.inl rfl⟩
        · exact ⟨b, by simp [hb], by omega, fun x hx => by injection hx with hx; omega,
            Or.inr rfl⟩
    obtain ⟨u, hu, hut, hub, hcase⟩ := hupd
    rw [hu] at h
    obtain ⟨hmem, hall, hacc⟩ := ih (some u) m h
    have hmu : m ≤ u := hacc u rfl
    refine ⟨?_, ?_, ?_⟩
    · rcases hmem with hm | hm
      · exact Or.inl (List.mem_cons_of_mem t hm)
      · have hum : u = m := by injection hm
        rcases hcase with hc | hc
        · refine Or.inl ?_
          rw [← hum, hc]
          exact List.mem_cons_self t rest
        · rw [hum] at hc
          exact Or.inr hc
    · intro x hx
      rcases List.mem_cons.mp hx with hx | hx
      · subst hx; omega
      · exact hall x hx
    · intro b hb
      have := hub b hb
      omega

/-- Helper: minOptFold from an empty accumulator is none exactly on the empty
list. -/
theorem oldestOf_eq_none_iff (hs : List ℤ) : oldestOf hs = none ↔ hs = [] := by
  constructor
  · intro h
    cases hs with
    | nil => rfl
    | cons t rest =>
      exfalso
      unfold oldestOf minOptFold at h
      simp only [List.foldl_cons] at h
      have := minOptFold_isSome rest t
      unfold minOptFold at this
      rw [h] at this
      exact Bool.noConfusion this
  · intro h
    subst h
    rfl

/-- Helper: the scan loop computes exactly the running minimum of the attempted
hits folded onto the incoming best, independently of the incoming best. -/
theorem scanLoop_eq_min (runQuery : String → ℤ → Except Unit (Option ℤ × ℤ))
    (budget : ℤ) :
    ∀ (qs : List String) (e : ℤ) (best : Option ℤ) (hs : List ℤ),
      attemptedHits runQuery budget qs e = .ok hs →
      scanLoop runQuery budget qs e best = .ok (minOptFold hs best) := by
  intro qs
  induction qs with
  | nil =>
    intro e best hs h
    unfold attemptedHits at h
    injection h with h
    subst h
    rfl
  | cons q rest ih =>
    intro e best hs h
    unfold attemptedHits at h
    unfold scanLoop
    by_cases h1 : budget - e ≤ 0
    · rw [if_pos h1] at h ⊢
      injection h with h
      subst h
      rfl
    · rw [if_neg h1] at h ⊢
      cases hrq : runQuery q (budget - e) with
      | error err => rw [hrq] at h; exact absurd h (by simp)
      | ok pr =>
        rw [hrq] at h
        obtain ⟨ts, dt⟩ := pr
        simp only [] at h ⊢
        by_cases h2 : budget ≤ e + dt
        · rw [if_pos h2] at h ⊢
          injection h with h
          subst h
          cases ts with
          | none => rfl
          | some t =>
            by_cases ht : t = 0
            · subst ht; simp only [ne_eq, not_true_eq_false, if_false]; rfl
            · simp only [ne_eq, ht, not_false_eq_true, if_true]
              cases best <;> rfl
        · rw [if_neg h2] at h ⊢
          cases hrec : attemptedHits runQuery budget rest (e + dt) with
          | error err => rw [hrec] at h; exact absurd h (by simp)
          | ok hs2 =>
            rw [hrec] at h
            injection h with h
            subst h
            cases ts with
            | none =>
              rw [ih (e + dt) best hs2 hrec]
              rfl
            | some t =>
              by_cases ht : t = 0
              · subst ht
                simp only [ne_eq, not_true_eq_false, if_false]
                rw [ih (e + dt) best hs2 hrec]
                rfl
              · simp only [ne_eq, ht, not_false_eq_true, if_true]
                have hm : ∀ b : Option ℤ,
                    (match b with
                     | none => some t
                     | some x => if t < x then some t else some x) =
                    minOptFold [t] b := by
                  intro b; cases b <;> rfl
                rw [hm best, ih (e + dt) (minOptFold [t] best) hs2 hrec]
                unfold minOptFold
                rw [← List.foldl_append]

/-- C3 (code bug): as written, the multi-tier scanner never runs its tier
loop — gmail_oldest_from_queries_bounded begins with the import
"from app import build_gmail", and src/app.py defines gmail_service, not
build_gmail, so every call raises ImportError before any tier or budget check
(first conjunct).  The budgeted tier loop the claim describes is itself
correct: downstream of the failing import it returns exactly the minimum
timestamp over the hits of the tiers it attempts (recording each tier's hit
before re-checking the budget, so a tier that overruns the budget mid-tier
still contributes and never erases an earlier tier's hit), and its result is
absent — not an error — exactly when no attempted tier produced a hit
(second conjunct). -/
theorem claim_C3 :
    (∀ runQuery (budget : ℤ) key ql,
      gmail_oldest_from_queries_bounded runQuery budget key ql =
        Except.error ()) ∧
    (∀ runQuery (budget : ℤ) key ql hs,
      attemptedHits runQuery budget (selectedQueries key ql) 0 = .ok hs →
      scanLoop runQuery budget (selectedQueries key ql) 0 none =
        .ok (oldestOf hs) ∧
      (oldestOf hs = none ↔ hs = []) ∧
      (∀ m, oldestOf hs = some m → m ∈ hs ∧ ∀ t ∈ hs, m ≤ t)) := by
  constructor
  · intro runQuery budget key ql
    have himp : import_build_gmail = Except.error () := by decide
    unfold gmail_oldest_from_queries_bounded
    rw [himp]
  · intro runQuery budget key ql hs h
    refine ⟨scanLoop_eq_min runQuery budget (selectedQueries key ql) 0 none hs h,
      oldestOf_eq_none_iff hs, ?_⟩
    intro m hm
    obtain ⟨hmem, hall, -⟩ := minOptFold_spec hs none m hm
    refine ⟨?_, hall⟩
    rcases hmem with h1 | h1
    · exact h1
    · exact absurd h1 (by simp)

/-- Witness for C3: a concrete scanner call ends in the import error, while
the same tier loop run directly (two tiers, both within budget) returns the
minimum of its two hits. -/
theorem claim_C3_witness :
    gmail_oldest_from_queries_bounded
      (fun q _ => Except.ok (some (if q = "a" then 5000 else 3000), 1)) 10
      "nokey" ["a", "b"] = Except.error () ∧
    scanLoop (fun q _ => Except.ok (some (if q = "a" then 5000 else 3000), 1))
      10 (selectedQueries "nokey" ["a", "b"]) 0 none = Except.ok (some 3000) := by
  have h := claim_C3.2
    (fun q _ => Except.ok (some (if q = "a" then 5000 else 3000), 1))
    10 "nokey" ["a", "b"] [5000, 3000] (by decide)
  refine ⟨claim_C3.1 _ 10 "nokey" ["a", "b"], ?_⟩
  rw [h.1]
  rfl

/-- Helper: membership in the day-window filter of a store. -/
theorem matchesIn_mem (store : List ℤ) (dlo dhi m : ℤ) :
    m ∈ matchesIn store dlo dhi ↔
      m ∈ store ∧ dlo ≤ msDay m ∧ msDay m < dhi := by
  simp [matchesIn, List.mem_filter, and_assoc]

/-- Helper: the store existence probe is true exactly when some message's day
falls in the window. -/
theorem existsInStore_iff (store : List ℤ) (dlo dhi : ℤ) :
    existsInStore store dlo dhi = true ↔
      ∃ m ∈ store, dlo ≤ msDay m ∧ msDay m < dhi := by
  unfold existsInStore
  constructor
  · intro h
    have hne : matchesIn store dlo dhi ≠ [] := by
      intro hcon
      rw [hcon] at h
      exact absurd h (by simp)
    obtain ⟨x, hx⟩ := List.exists_mem_of_ne_nil _ hne
    obtain ⟨hmem, hd1, hd2⟩ := (matchesIn_mem store dlo dhi x).mp hx
    exact ⟨x, hmem, hd1, hd2⟩
  · rintro ⟨m, hmem, hd1, hd2⟩
    have hin : m ∈ matchesIn store dlo dhi :=
      (matchesIn_mem store dlo dhi m).mpr ⟨hmem, hd1, hd2⟩
    have hne := List.ne_nil_of_mem hin
    cases hmm : matchesIn store dlo dhi with
    | nil => exact absurd hmm hne
    | cons a l => rfl

/-- Helper: a maxOptFold that starts from a present accumulator stays present. -/
theorem maxOptFold_isSome : ∀ (l : List ℤ) (b : ℤ), (maxOptFold l (some b)).isSome := by
  intro l
  induction l with
  | nil => intro b; rfl
  | cons t rest ih =>
    intro b
    unfold maxOptFold at ih ⊢
    simp only [List.foldl_cons]
    by_cases h : b < t
    · rw [if_pos h]; exact ih t
    · rw [if_neg h]; exact ih b

/-- Helper: full characterisation of a successful maxOptFold: the result is an
element or the accumulator, dominates every element, and dominates the
accumulator. -/
theorem maxOptFold_spec : ∀ (l : List ℤ) (acc : Option ℤ) (m : ℤ),
    maxOptFold l acc = some m →
    (m ∈ l ∨ acc = some m) ∧ (∀ x ∈ l, x ≤ m) ∧ (∀ b, acc = some b → b ≤ m) := by
  intro l
  induction l with
  | nil =>
    intro acc m h
    unfold maxOptFold at h
    simp only [List.foldl_nil] at h
    exact ⟨Or.inr h, by simp, fun b hb => by rw [hb] at h; injection h with h; omega⟩
  | cons t rest ih =>
    intro acc m h
    unfold maxOptFold at h
    simp only [List.foldl_cons] at h
    have hupd : ∃ u, (match acc with
        | none => some t
        | some b => some (if b < t then t else b)) = some u ∧ t ≤ u ∧
        (∀ b, acc = some b → b ≤ u) ∧ (u = t ∨ acc = some u) := by
      match acc with
      | none => exact ⟨t, rfl, le_refl t, by simp, Or.inl rfl⟩
      | some b =>
        by_cases hb : b < t
        · exact ⟨t, by simp [hb], le_refl t,
            fun x hx => by injection hx with hx; omega, Or.inl rfl⟩
        · exact ⟨b, by simp [hb], by omega,
            fun x hx => by injection hx with hx; omega, Or.inr rfl⟩
    obtain ⟨u, hu, hut, hub, hcase⟩ := hupd
    rw [hu] at h
    obtain ⟨hmem, hall, hacc⟩ := ih (some u) m h
    have hmu : u ≤ m := hacc u rfl
    refine ⟨?_, ?_, ?_⟩
    · rcases hmem with hm | hm
      · exact Or.inl (List.mem_cons_of_mem t hm)
      · have hum : u = m := by injection hm
        rcases hcase with hc | hc
        · refine Or.inl ?_
          rw [← hum, hc]
          exact List.mem_cons_self t rest
        · rw [hum] at hc
          exact Or.inr hc
    · intro x hx
      rcases List.mem_cons.mp hx with hx | hx
      · subst hx; omega
      · exact hall x hx
    · intro b hb
      have := hub b hb
      omega

/-- Helper: a true existence probe guarantees the fetch of the newest match
succeeds. -/
theorem newestInStore_of_exists (store : List ℤ) (dlo dhi : ℤ)
    (h : existsInStore store dlo dhi = true) :
    ∃ t, newestInStore store dlo dhi = some t := by
  unfold existsInStore at h
  unfold newestInStore
  cases hm : matchesIn store dlo dhi with
  | nil => rw [hm] at h; exact absurd h (by simp)
  | cons x xs =>
    have hs := maxOptFold_isSome xs x
    have heq : maxOptFold (x :: xs) none = maxOptFold xs (some x) := by
      unfold maxOptFold
      rfl
    rw [heq]
    exact Option.isSome_iff_exists.mp hs

/-- Helper: what a successful fetch of the newest match guarantees: it is a
stored message, its day lies in the window, and it is the most recent such. -/
theorem newestInStore_some (store : List ℤ) (dlo dhi t : ℤ)
    (h : newestInStore store dlo dhi = some t) :
    t ∈ store ∧ dlo ≤ msDay t ∧ msDay t < dhi ∧
      ∀ m ∈ store, dlo ≤ msDay m → msDay m < dhi → m ≤ t := by
  unfold newestInStore at h
  obtain ⟨hmem, hall, -⟩ := maxOptFold_spec _ none t h
  have hm : t ∈ matchesIn store dlo dhi := by
    rcases hmem with h1 | h1
    · exact h1
    · exact absurd h1 (by simp)
  obtain ⟨h1, h2, h3⟩ := (matchesIn_mem store dlo dhi t).mp hm
  refine ⟨h1, h2, h3, ?_⟩
  intro m hm1 hm2 hm3
  exact hall m ((matchesIn_mem store dlo dhi m).mpr ⟨hm1, hm2, hm3⟩)

/-- Helper: shape of a miss iteration. -/
theorem bisectStep_miss (probe : ℤ → ℤ → Except Unit Bool)
    (fetch : ℤ → ℤ → Except Unit (Option ℤ)) (s : BState)
    (h : probe (msDay s.lo) (msDay ((s.lo + s.hi) / 2)) = Except.ok false) :
    bisectStep probe fetch s = .ok ⟨(s.lo + s.hi) / 2, s.hi, s.best⟩ := by
  simp only [bisectStep, h]

/-- Helper: shape of a hit iteration whose fetch returns a timestamp. -/
theorem bisectStep_hit (probe : ℤ → ℤ → Except Unit Bool)
    (fetch : ℤ → ℤ → Except Unit (Option ℤ)) (s : BState) (ts : ℤ)
    (h : probe (msDay s.lo) (msDay ((s.lo + s.hi) / 2)) = Except.ok true)
    (hf : fetch (msDay s.lo) (msDay ((s.lo + s.hi) / 2)) = Except.ok (some ts)) :
    bisectStep probe fetch s =
      .ok ⟨s.lo, (s.lo + s.hi) / 2,
        some (match s.best with
              | none => ts
              | some b => if ts < b then ts else b)⟩ := by
  simp only [bisectStep, h, hf]

/-- Helper: one iteration over a deterministic store preserves the bisection
invariant. -/
theorem bisectStep_BInv (store : List ℤ) (hi0 D : ℤ) (s s' : BState)
    (hmem : ∃ m0 ∈ store, msDay m0 = D)
    (hmin : ∀ m ∈ store, D ≤ msDay m)
    (hinv : BInv store hi0 D s)
    (hstep : bisectStep (storeProbe store) (storeFetch store) s = .ok s') :
    BInv store hi0 D s' := by
  obtain ⟨h1, h2, h3⟩ := hinv
  cases hex : existsInStore store (msDay s.lo) (msDay ((s.lo + s.hi) / 2)) with
  | false =>
    rw [bisectStep_miss (storeProbe store) (storeFetch store) s
      (by simp [storeProbe, hex])] at hstep
    injection hstep with hstep
    have hmid : msDay ((s.lo + s.hi) / 2) ≤ D := by
      by_contra hcon
      push_neg at hcon
      obtain ⟨m0, hm0, hm0d⟩ := hmem
      have hx : existsInStore store (msDay s.lo) (msDay ((s.lo + s.hi) / 2)) = true :=
        (existsInStore_iff store _ _).mpr ⟨m0, hm0, by omega, by omega⟩
      rw [hex] at hx
      exact Bool.noConfusion hx
    rw [← hstep]
    exact ⟨hmid, h2, h3⟩
  | true =>
    obtain ⟨ts, hts⟩ := newestInStore_of_exists store _ _ hex
    rw [bisectStep_hit (storeProbe store) (storeFetch store) s ts
      (by simp [storeProbe, hex]) (by simp [storeFetch, hts])] at hstep
    injection hstep with hstep
    obtain ⟨htmem, ht1, ht2, -⟩ := newestInStore_some store _ _ ts hts
    have hmidgt : D < msDay ((s.lo + s.hi) / 2) := by
      obtain ⟨m, hm, hma, hmb⟩ := (existsInStore_iff store _ _).mp hex
      have := hmin m hm
      omega
    have hts_lt : ts < msDay ((s.lo + s.hi) / 2) * 86400000 := by
      unfold msDay at ht2 ⊢
      omega
    rw [← hstep]
    refine ⟨h1, hmidgt, ?_⟩
    cases hb : s.best with
    | none => exact ⟨htmem, hts_lt⟩
    | some b =>
      rw [hb] at h3
      by_cases hlt : ts < b
      · simp only [hlt, if_true]
        exact ⟨htmem, hts_lt⟩
      · simp only [hlt, if_false]
        refine ⟨h3.1, ?_⟩
        omega

/-- Helper: a floor exit of the bisection run over a deterministic store
satisfies the invariant with a sub-second window. -/
theorem bisectRun_BInv (store : List ℤ) (hi0 D budget : ℤ)
    (hmem : ∃ m0 ∈ store, msDay m0 = D)
    (hmin : ∀ m ∈ store, D ≤ msDay m) :
    ∀ (cs : List ℤ) (e : ℤ) (s s' : BState) (e2 : ℤ),
      BInv store hi0 D s →
      bisectRun (storeProbe store) (storeFetch store) budget cs e s =
        .ok (some (.floor, s', e2)) →
      BInv store hi0 D s' ∧ s'.hi - s'.lo < 1000 := by
  intro cs
  induction cs with
  | nil =>
    intro e s s' e2 hinv h
    simp [bisectRun] at h
  | cons c rest ih =>
    intro e s s' e2 hinv h
    unfold bisectRun at h
    split at h
    · simp at h
    · split at h
      · simp at h
      · rename_i s2 heq
        split at h
        · rename_i hf
          simp only [Except.ok.injEq, Option.some.injEq, Prod.mk.injEq] at h
          obtain ⟨-, hs', -⟩ := h
          rw [← hs']
          exact ⟨bisectStep_BInv store hi0 D s s2 hmem hmin hinv heq, hf⟩
        · exact ih (e + c) s2 s' e2
            (bisectStep_BInv store hi0 D s s2 hmem hmin hinv heq) h

/-- Counterexample to C2 as stated: on a hit iteration the locator does not
record the earliest item of [lo, mid] — it fetches the first item of the
store's newest-first listing (maxResults=1, first page), i.e. the MOST RECENT
match.  With messages on day 2 and day 10 and a first probe window of days
[0, 50), the recorded best is the day-10 timestamp, while the earliest item in
the window is the day-2 timestamp. -/
theorem claim_C2_counterexample :
    bisectStep (storeProbe [172800000, 864000000])
      (storeFetch [172800000, 864000000]) ⟨0, 8640000000, none⟩ =
      Except.ok ⟨0, 4320000000, some 864000000⟩ ∧
    spec_earliest_in_range [172800000, 864000000] 0 50 = some 172800000 ∧
    (172800000 : ℤ) ≠ 864000000 := by
  exact ⟨by decide, by decide, by decide⟩

/-- C2 (amended): on a hit iteration the locator records the authoritative
timestamp of the first listed (most recent) match of [lo, mid], keeping it
only when earlier than any previously recorded best; for a deterministic
monotone store whose messages all lie at or after the window start's day and
whose earliest matching day is D, any run that exits through the sub-second
floor of a window that extends at least one second past the end of day D
returns a recorded best lying on day D (within ±1 day of D); and when no probe
ever reports a match the recorded best remains absent whatever the exit. -/
theorem claim_C2 :
    (∀ probe fetch (s : BState) (ts : ℤ),
      probe (msDay s.lo) (msDay ((s.lo + s.hi) / 2)) = Except.ok true →
      fetch (msDay s.lo) (msDay ((s.lo + s.hi) / 2)) = Except.ok (some ts) →
      bisectStep probe fetch s =
        .ok ⟨s.lo, (s.lo + s.hi) / 2,
          some (match s.best with
                | none => ts
                | some b => if ts < b then ts else b)⟩) ∧
    (∀ (store : List ℤ) (dlo dhi t : ℤ),
      newestInStore store dlo dhi = some t →
      t ∈ store ∧ dlo ≤ msDay t ∧ msDay t < dhi ∧
        ∀ m ∈ store, dlo ≤ msDay m → msDay m < dhi → m ≤ t) ∧
    (∀ (store : List ℤ) (D budget : ℤ) (costs : List ℤ)
        (start_dt end_dt : ℤ) (s' : BState) (e2 : ℤ),
      (∃ m0 ∈ store, msDay m0 = D) →
      (∀ m ∈ store, msDay start_dt ≤ msDay m) →
      (∀ m ∈ store, D ≤ msDay m) →
      (D + 1) * 86400000 + 1000 ≤ end_dt →
      gmail_find_earliest_hit_ts_bisect (storeProbe store) (storeFetch store)
        budget costs start_dt end_dt = .ok (some (.floor, s', e2)) →
      ∃ b, s'.best = some b ∧ msDay b = D) ∧
    (∀ fetch (budget : ℤ) (cs : List ℤ) (e : ℤ) (s : BState) (ex : BExit)
        (s' : BState) (e2 : ℤ),
      s.best = none →
      bisectRun (fun _ _ => Except.ok false) fetch budget cs e s =
        .ok (some (ex, s', e2)) →
      s'.best = none) := by
  refine ⟨bisectStep_hit, newestInStore_some, ?_, ?_⟩
  · intro store D budget costs start_dt end_dt s' e2 hmem hstart hmin hend hrun
    unfold gmail_find_earliest_hit_ts_bisect at hrun
    have hinv0 : BInv store end_dt D ⟨start_dt, end_dt, none⟩ := by
      refine ⟨?_, ?_, rfl⟩
      · show msDay start_dt ≤ D
        obtain ⟨m0, hm0, hd⟩ := hmem
        have := hstart m0 hm0
        omega
      · show D < msDay end_dt
        unfold msDay
        omega
    obtain ⟨⟨h1, h2, h3⟩, hfl⟩ :=
      bisectRun_BInv store end_dt D budget hmem hmin costs 0
        ⟨start_dt, end_dt, none⟩ s' e2 hinv0 hrun
    cases hb : s'.best with
    | none =>
      rw [hb] at h3
      exfalso
      unfold msDay at h1
      omega
    | some b =>
      rw [hb] at h3
      obtain ⟨hbmem, hblt⟩ := h3
      refine ⟨b, rfl, ?_⟩
      have hbge := hmin b hbmem
      unfold msDay at h1 h2 hblt hbge ⊢
      omega
  · intro fetch budget cs
    induction cs with
    | nil =>
      intro e s ex s' e2 hbest h
      simp [bisectRun] at h
    | cons c rest ih =>
      intro e s ex s' e2 hbest h
      unfold bisectRun at h
      split at h
      · simp only [Except.ok.injEq, Option.some.injEq, Prod.mk.injEq] at h
        obtain ⟨-, hs', -⟩ := h
        rw [← hs']
        exact hbest
      · rw [bisectStep_miss (fun _ _ => Except.ok false) fetch s rfl] at h
        simp only [] at h
        split at h
        · simp only [Except.ok.injEq, Option.some.injEq, Prod.mk.injEq] at h
          obtain ⟨-, hs', -⟩ := h
          rw [← hs']
          exact hbest
        · exact ih (e + c) ⟨(s.lo + s.hi) / 2, s.hi, s.best⟩ ex s' e2 hbest h

/-- Witness for C2: a store with one message at 100 ms (day 0), window
[0, 2^27) ms, zero-cost probes and budget 1: the run exits through the floor
with best = 100, which lies on day 0. -/
theorem claim_C2_witness :
    (⟨86399488, 86400000, some 100⟩ : BState).best = some 100 ∧
    msDay (100 : ℤ) = 0 := by
  obtain ⟨b, hb, hd⟩ :=
    claim_C2.2.2.1 [100] 0 1 (List.replicate 25 0) 0 134217728
      ⟨86399488, 86400000, some 100⟩ 0 (by decide) (by decide) (by decide)
      (by decide) (by decide)
  have hb' : b = 100 := by
    have : some (100 : ℤ) = some b := hb
    injection this with h
    omega
  refine ⟨rfl, ?_⟩
  rw [← hb']
  exact hd

/-- Helper: interpolation evaluated at the left endpoint gives the left count. -/
theorem interpUsers_left (p0 p1 : ℤ × ℤ) : interpUsers p0 p1 p0.1 = (p0.2 : ℚ) := by
  unfold interpUsers
  by_cases h : ((p1.1 : ℚ) - (p0.1 : ℚ)) = 0
  · rw [if_pos h]
    ring
  · rw [if_neg h, sub_self, zero_div]
    ring

/-- Helper: interpolation evaluated at the right endpoint of a nondegenerate
pair gives the right count. -/
theorem interpUsers_right (p0 p1 : ℤ × ℤ) (h : p0.1 < p1.1) :
    interpUsers p0 p1 p1.1 = (p1.2 : ℚ) := by
  unfold interpUsers
  have hne : ((p1.1 : ℚ) - (p0.1 : ℚ)) ≠ 0 := by
    have hlt : (p0.1 : ℚ) < (p1.1 : ℚ) := by exact_mod_cast h
    linarith
  rw [if_neg hne, div_self hne]
  ring

/-- Helper: along a strictly date-sorted nonempty list the head's date is below
every later element's date. -/
theorem chain_head_lt (x : ℤ × ℤ) :
    ∀ (l : List (ℤ × ℤ)), List.Chain' (fun a b => a.1 < b.1) (x :: l) →
      ∀ (i : ℕ) (h : i < l.length), x.1 < (l.get ⟨i, h⟩).1 := by
  intro l
  induction l generalizing x with
  | nil =>
    intro hch i h
    exact absurd h (by simp)
  | cons y ls ih =>
    intro hch i h
    rw [List.chain'_cons] at hch
    obtain ⟨hxy, hch'⟩ := hch
    cases i with
    | zero => exact hxy
    | succ j => exact lt_trans hxy (ih y hch' j (by simpa using h))

/-- Helper: the head's date is at most the last date, strictly below it when
the tail is nonempty. -/
theorem chain_head_le_last :
    ∀ (p : ℤ × ℤ) (rest : List (ℤ × ℤ)),
      List.Chain' (fun a b => a.1 < b.1) (p :: rest) →
      p.1 ≤ ((p :: rest).getLast (List.cons_ne_nil p rest)).1 ∧
        (rest ≠ [] →
          p.1 < ((p :: rest).getLast (List.cons_ne_nil p rest)).1) := by
  intro p rest
  induction rest generalizing p with
  | nil =>
    intro _
    exact ⟨le_refl _, fun hc => absurd rfl hc⟩
  | cons b rest' ih =>
    intro hch
    rw [List.chain'_cons] at hch
    obtain ⟨hpb, hch'⟩ := hch
    have hb := (ih b hch').1
    have hlast : (p :: b :: rest').getLast (List.cons_ne_nil p (b :: rest')) =
        (b :: rest').getLast (List.cons_ne_nil b rest') := rfl
    rw [hlast]
    exact ⟨by omega, fun _ => by omega⟩

/-- Helper: on a strictly sorted list the pair scan returns the interpolation
of any bracketing consecutive pair. -/
theorem users_at_scan_bracket :
    ∀ (tl : List (ℤ × ℤ)) (when : ℤ) (i : ℕ) (h0 : i < tl.length)
      (h1 : i + 1 < tl.length),
      List.Chain' (fun a b => a.1 < b.1) tl →
      (tl.get ⟨i, h0⟩).1 ≤ when →
      when ≤ (tl.get ⟨i + 1, h1⟩).1 →
      users_at_scan when tl =
        some (pyRound (interpUsers (tl.get ⟨i, h0⟩) (tl.get ⟨i + 1, h1⟩) when)) := by
  intro tl
  induction tl with
  | nil =>
    intro when i h0 h1
    exact absurd h1 (by simp)
  | cons a tail ih =>
    intro when i h0 h1 hch hle hge
    cases tail with
    | nil =>
      exfalso
      simp only [List.length_cons, List.length_nil] at h1
      omega
    | cons b rest =>
      rw [List.chain'_cons] at hch
      obtain ⟨hab, hch'⟩ := hch
      cases i with
      | zero =>
        unfold users_at_scan
        rw [if_pos ⟨hle, hge⟩]
        rfl
      | succ j =>
        unfold users_at_scan
        by_cases hguard : a.1 ≤ when ∧ when ≤ b.1
        · rw [if_pos hguard]
          have hd0 : ((b :: rest).get ⟨j, by simpa using h0⟩).1 ≤ when := hle
          cases j with
          | succ k =>
            exfalso
            have hlt := chain_head_lt b rest hch' k (by simpa using h0)
            have hk : (rest.get ⟨k, by simpa using h0⟩).1 ≤ when := hd0
            have hwb : when ≤ b.1 := hguard.2
            omega
          | zero =>
            have hbw : b.1 ≤ when := hd0
            have hwhen : when = b.1 := le_antisymm hguard.2 hbw
            subst hwhen
            show some (pyRound (interpUsers a b b.1)) =
              some (pyRound (interpUsers b (rest.get ⟨0, by simpa using h1⟩) b.1))
            rw [interpUsers_right a b hab, interpUsers_left b]
        · rw [if_neg hguard]
          exact ih when j (by simpa using h0) (by simpa using h1) hch' hle hge

/-- C4: over a nonempty strictly date-sorted timeline, users_at returns the
first count at or before the first date, the last count at or after the last
date, and otherwise the linear interpolation over a bracketing consecutive
pair, rounded to a nearest integer (Python round, half to even, is within one
half of the exact value); users_at is this timeline computation applied to the
parsed curve timeline. -/
theorem claim_C4 :
    (∀ q : ℚ, |(pyRound q : ℚ) - q| ≤ 1/2) ∧
    (∀ curves platform when_ms,
      users_at curves platform when_ms =
        users_at_tl (parse_timeline curves platform) when_ms) ∧
    (∀ (p : ℤ × ℤ) (rest : List (ℤ × ℤ)) (when : ℤ),
      when ≤ p.1 → users_at_tl (p :: rest) when = some p.2) ∧
    (∀ (p : ℤ × ℤ) (rest : List (ℤ × ℤ)) (when : ℤ),
      List.Chain' (fun a b => a.1 < b.1) (p :: rest) →
      ((p :: rest).getLast (List.cons_ne_nil p rest)).1 ≤ when →
      users_at_tl (p :: rest) when =
        some (((p :: rest).getLast (List.cons_ne_nil p rest)).2)) ∧
    (∀ (p : ℤ × ℤ) (rest : List (ℤ × ℤ)) (when : ℤ) (i : ℕ)
        (h0 : i < (p :: rest).length) (h1 : i + 1 < (p :: rest).length),
      List.Chain' (fun a b => a.1 < b.1) (p :: rest) →
      p.1 < when →
      when < ((p :: rest).getLast (List.cons_ne_nil p rest)).1 →
      ((p :: rest).get ⟨i, h0⟩).1 ≤ when →
      when ≤ ((p :: rest).get ⟨i + 1, h1⟩).1 →
      users_at_tl (p :: rest) when =
        some (pyRound (interpUsers ((p :: rest).get ⟨i, h0⟩)
          ((p :: rest).get ⟨i + 1, h1⟩) when))) := by
  refine ⟨pyRound_near, fun _ _ _ => rfl, ?_, ?_, ?_⟩
  · intro p rest when h
    unfold users_at_tl
    simp only []
    rw [if_pos h]
  · intro p rest when hch hlast
    unfold users_at_tl
    simp only []
    by_cases hw : when ≤ p.1
    · rw [if_pos hw]
      have hple := (chain_head_le_last p rest hch).1
      cases rest with
      | nil => rfl
      | cons b rest' =>
        exfalso
        have := (chain_head_le_last p (b :: rest') hch).2 (List.cons_ne_nil b rest')
        omega
    · rw [if_neg hw, if_pos hlast]
  · intro p rest when i h0 h1 hch hfirst hlast hle hge
    unfold users_at_tl
    simp only []
    rw [if_neg (not_le.mpr hfirst), if_neg (not_le.mpr hlast)]
    rw [users_at_scan_bracket (p :: rest) when i h0 h1 hch hle hge]

/-- Witness for C4 at the spec's example timeline [(2020-01-01, 0),
(2021-01-01, 100)] (dates as UTC milliseconds): at 2020-07-02 the result is
exactly 50; before 2020-01-01 it is exactly 0; after 2021-01-01 it is exactly
100. -/
theorem claim_C4_witness :
    users_at_tl [(1577836800000, 0), (1609459200000, 100)] 1593648000000 =
      some 50 ∧
    users_at_tl [(1577836800000, 0), (1609459200000, 100)] 1262304000000 =
      some 0 ∧
    users_at_tl [(1577836800000, 0), (1609459200000, 100)] 1893456000000 =
      some 100 := by
  have hch : List.Chain' (fun a b : ℤ × ℤ => a.1 < b.1)
      [((1577836800000 : ℤ), (0 : ℤ)), ((1609459200000 : ℤ), (100 : ℤ))] := by
    exact List.Chain.cons (by decide) List.Chain.nil
  refine ⟨?_, ?_, ?_⟩
  · have h5 := claim_C4.2.2.2.2 ((1577836800000 : ℤ), (0 : ℤ))
      [((1609459200000 : ℤ), (100 : ℤ))] 1593648000000 0 (by decide) (by decide)
      hch (by decide) (by decide) (by decide) (by decide)
    rw [h5]
    have hi : interpUsers ((1577836800000 : ℤ), (0 : ℤ))
        ((1609459200000 : ℤ), (100 : ℤ)) 1593648000000 = ((50 : ℤ) : ℚ) := by
      unfold interpUsers
      norm_num
    show some (pyRound (interpUsers ((1577836800000 : ℤ), (0 : ℤ))
      ((1609459200000 : ℤ), (100 : ℤ)) 1593648000000)) = some 50
    rw [hi, pyRound_intCast]
  · exact claim_C4.2.2.1 ((1577836800000 : ℤ), (0 : ℤ))
      [((1609459200000 : ℤ), (100 : ℤ))] 1262304000000 (by decide)
  · exact claim_C4.2.2.2.1 ((1577836800000 : ℤ), (0 : ℤ))
      [((1609459200000 : ℤ), (100 : ℤ))] 1893456000000 hch (by decide)
